import Mathlib

/-!
Shallow embedding of `pym/portage/env/loaders.py` (Portage config loaders).

Python strings are modelled as `List Char` (`Str`), Python dicts as
insertion-ordered association lists, and the per-line parsers of
`ItemFileLoader`, `KeyListFileLoader` and `KeyValuePairFileLoader` as pure
functions threading the `(data, errors)` accumulators.  Generators and
exceptions are embedded with `List` and `Except`-style results.
-/

set_option autoImplicit false

namespace Portage

/-- A Python string, as its list of characters. -/
abbrev Str := List Char

/-- Whether a character counts as whitespace for `str.strip()` / `str.split()`. -/
def isWS (c : Char) : Bool := c.isWhitespace

/-- Python `line.strip()`: drop leading and trailing whitespace. -/
def pyStrip (s : Str) : Str :=
  ((s.dropWhile isWS).reverse.dropWhile isWS).reverse

/-- Helper for `str.split()` with no separator: accumulates the current token
(reversed) and splits on runs of whitespace, discarding empty tokens. -/
def splitWSAux : Str → Str → List Str
  | [], acc => if acc.isEmpty then [] else [acc.reverse]
  | c :: cs, acc =>
    if isWS c then
      if acc.isEmpty then splitWSAux cs [] else acc.reverse :: splitWSAux cs []
    else
      splitWSAux cs (c :: acc)

/-- Python `line.split()`: split on whitespace runs, no empty tokens. -/
def pySplit (s : Str) : List Str := splitWSAux s []

/-- Helper for `str.split('=')`: splits at every `'='`, keeping empty segments. -/
def splitEqAux : Str → Str → List Str
  | [], acc => [acc.reverse]
  | c :: cs, acc =>
    if c = '=' then acc.reverse :: splitEqAux cs [] else splitEqAux cs (c :: acc)

/-- Python `line.split('=')`: split at every occurrence of `'='`,
empty segments included. -/
def pySplitEq (s : Str) : List Str := splitEqAux s []

/-- Python `s.startswith(p)` restricted to what the parsers use. -/
def pyStartswith (p s : Str) : Bool := List.isPrefixOf p s

/-- The string `"#"` that marks comment lines. -/
def hashMark : Str := ['#']

/-! ### Python dicts as insertion-ordered association lists -/

/-- `d[k]` lookup: first (and only) binding of `k`. -/
def lookupD {β : Type} : List (Str × β) → Str → Option β
  | [], _ => none
  | (k', v) :: rest, k => if k' = k then some v else lookupD rest k

/-- `k in d`. -/
def containsD {β : Type} : List (Str × β) → Str → Bool
  | [], _ => false
  | (k', _) :: rest, k => if k' = k then true else containsD rest k

/-- `d[k] = v`: replace the value if `k` is bound, else append the binding. -/
def setD {β : Type} : List (Str × β) → Str → β → List (Str × β)
  | [], k, v => [(k, v)]
  | (k', v') :: rest, k, v =>
    if k' = k then (k', v) :: rest else (k', v') :: setD rest k v

/-- The keys of a dict, in insertion order. -/
def keysD {β : Type} (d : List (Str × β)) : List Str := d.map Prod.fst

/-- The error collection: dict from source identifier to list of messages. -/
abbrev ErrDict := List (Str × List Str)

/-- `errors.setdefault(fname, []).append(msg)`. -/
def appendErr (errors : ErrDict) (fname : Str) (msg : Str) : ErrDict :=
  match lookupD errors fname with
  | some msgs => setD errors fname (msgs ++ [msg])
  | none => errors ++ [(fname, [msg])]

/-! ### Error message rendering (Python `%` formatting with `%s`) -/

/-- Decimal rendering of a `Nat`, as Python `%s` renders an `int`. -/
def natStr (n : Nat) : Str := (toString n).toList

/-- `"Malformed data at line: %s, data: %s" % (line_num + 1, line)` as used by
`ItemFileLoader.lineParser` and `KeyListFileLoader.lineParser`. -/
def malformedDataColonMsg (lineNum : Nat) (line : Str) : Str :=
  "Malformed data at line: ".toList ++ natStr (lineNum + 1) ++
    ", data: ".toList ++ line

/-- `"Malformed data at line: %s, data %s" % (line_num + 1, line)` as used by
`KeyValuePairFileLoader.lineParser` (no colon after `data`). -/
def malformedDataKVMsg (lineNum : Nat) (line : Str) : Str :=
  "Malformed data at line: ".toList ++ natStr (lineNum + 1) ++
    ", data ".toList ++ line

/-- `"Malformed key at line: %s, key %s" % (line_num + 1, key)`. -/
def malformedKeyMsg (lineNum : Nat) (key : Str) : Str :=
  "Malformed key at line: ".toList ++ natStr (lineNum + 1) ++
    ", key ".toList ++ key

/-- `"Validation failed at line: %s, data %s" % (line_num + 1, key)` as used by
all three parsers. -/
def validationFailedMsg (lineNum : Nat) (key : Str) : Str :=
  "Validation failed at line: ".toList ++ natStr (lineNum + 1) ++
    ", data ".toList ++ key

/-- The default validator installed by `DataLoader.__init__` when `validator`
is `None`: accepts every key. -/
def acceptAllValidator : Str → Bool := fun _ => true

/-! ### The three concrete line parsers -/

/-- A Python value stored inside the list values of `KeyListFileLoader` /
`KeyValuePairFileLoader` data dicts: either a token string (from the first
occurrence of a key) or a whole token-list appended by `data[key].append(value)`
on a repeated key. -/
inductive PvElem : Type
  | str (s : Str)
  | lst (xs : List Str)
deriving DecidableEq

/-- `ItemFileLoader.lineParser`.  The data dict maps keys to Python `None`,
modelled as `Unit`. -/
def itemLineParser (validate : Str → Bool) (fname line : Str) (lineNum : Nat)
    (data : List (Str × Unit)) (errors : ErrDict) :
    List (Str × Unit) × ErrDict :=
  let l := pyStrip line
  if pyStartswith hashMark l then (data, errors)
  else if l.length = 0 then (data, errors)
  else
    let split := pySplit l
    if split.length = 0 then
      (data, appendErr errors fname (malformedDataColonMsg lineNum l))
    else
      let key := split.headD []
      if !validate key then
        (data, appendErr errors fname (validationFailedMsg lineNum key))
      else
        (setD data key (), errors)

/-- `data[key].append(value)` for the key-list style dicts: append the whole
token-list as one element to the list already stored for `key`. -/
def appendElemD : List (Str × List PvElem) → Str → List Str →
    List (Str × List PvElem)
  | [], _, _ => []
  | (k', vs) :: rest, k, v =>
    if k' = k then (k', vs ++ [PvElem.lst v]) :: rest
    else (k', vs) :: appendElemD rest k v

/-- `KeyListFileLoader.lineParser`. -/
def keyListLineParser (validate : Str → Bool) (fname line : Str) (lineNum : Nat)
    (data : List (Str × List PvElem)) (errors : ErrDict) :
    List (Str × List PvElem) × ErrDict :=
  let l := pyStrip line
  if pyStartswith hashMark l then (data, errors)
  else if l.length = 0 then (data, errors)
  else
    let split := pySplit l
    if split.length < 2 then
      (data, appendErr errors fname (malformedDataColonMsg lineNum l))
    else
      let key := split.headD []
      let value := split.tail
      if !validate key then
        (data, appendErr errors fname (validationFailedMsg lineNum key))
      else if containsD data key then
        (appendElemD data key value, errors)
      else
        (setD data key (value.map PvElem.str), errors)

/-- `KeyValuePairFileLoader.lineParser`. -/
def keyValuePairLineParser (validate : Str → Bool) (fname line : Str)
    (lineNum : Nat) (data : List (Str × List PvElem)) (errors : ErrDict) :
    List (Str × List PvElem) × ErrDict :=
  let l := pyStrip line
  if pyStartswith hashMark l then (data, errors)
  else if l.length = 0 then (data, errors)
  else
    let split := pySplitEq l
    if split.length < 2 then
      (data, appendErr errors fname (malformedDataKVMsg lineNum l))
    else
      let key := split.headD []
      let value := split.tail
      if key.length = 0 then
        (data, appendErr errors fname (malformedKeyMsg lineNum key))
      else if !validate key then
        (data, appendErr errors fname (validationFailedMsg lineNum key))
      else if containsD data key then
        (appendElemD data key value, errors)
      else
        (setD data key (value.map PvElem.str), errors)

/-! ### RecursiveFileLoader -/

/-- A Python exception value, as the parsers and loaders can raise them. -/
inductive PyErr : Type
  | typeError (msg : Str)
  | valueError (msg : Str)
deriving DecidableEq

/-- A filesystem node handed to `RecursiveFileLoader`: either a plain file or
a directory with named entries. -/
inductive FSNode : Type
  | file (name : Str)
  | dir (name : Str) (entries : List FSNode)

/-- The value of the expression `str.startswith('.')` in `RecursiveFileLoader`
(line 44 of `loaders.py`): the unbound method `str.startswith` is called with
the single argument `'.'`, which binds as `self`, leaving the required prefix
argument missing, so the call unconditionally raises `TypeError`.  (Moreover
the enclosing `filter(files, ...)` call has its arguments swapped, but
evaluation never reaches `filter` because this argument raises first.) -/
def strStartswithMissingArg : PyErr :=
  PyErr.typeError "startswith() takes at least 1 argument (0 given)".toList

/-- `RecursiveFileLoader(filename)`, from `loaders.py` lines 40-49.

For a plain file the generator yields just `filename`.  For a directory, the
body of the `os.walk` loop evaluates
`files = filter(files, str.startswith('.'))` on the first yielded triple
(`os.walk` on an existing directory always yields at least the root triple),
and evaluating the argument `str.startswith('.')` raises `TypeError`
(`strStartswithMissingArg`) before any file can be yielded, whatever the
directory contains.  The `CVS` pruning and the `endswith('~')` filter on the
following lines are unreachable. -/
def RecursiveFileLoader (fs : FSNode) : Except PyErr (List Str) :=
  match fs with
  | FSNode.dir _ _ => Except.error strStartswithMissingArg
  | FSNode.file n => Except.ok [n]

/-! ### EnvLoader -/

/-- The dynamic value returned by a loader's `load()`: either a bare dict
(string-to-string), or a 2-tuple `(data, errors)`. -/
inductive PyLoadReturn : Type
  | dict (m : List (Str × Str))
  | tuple2 (d : List (Str × Str)) (e : ErrDict)

/-- Whether a `PyLoadReturn` is a 2-tuple. -/
def PyLoadReturn.isTuple2 : PyLoadReturn → Bool
  | PyLoadReturn.tuple2 _ _ => true
  | _ => false

/-- `EnvLoader.load`, from `loaders.py` lines 75-76: `return os.environ` —
the environment dict itself is returned, with no tuple wrapping and no error
collection. -/
def envLoaderLoad (environ : List (Str × Str)) : PyLoadReturn :=
  PyLoadReturn.dict environ

/-! ### TestTextLoader -/

/-- A dynamically typed Python value, as passed to `TestTextLoader.setData`. -/
inductive PyVal : Type
  | dict (entries : List (Str × PyVal))
  | str (s : Str)
  | int (n : Int)
  | none
  | list (xs : List PyVal)

/-- `isinstance(v, dict)`. -/
def PyVal.isDict : PyVal → Bool
  | PyVal.dict _ => true
  | _ => false

/-- The mutable state of a `TestTextLoader` instance: its `data` and `errors`
fields (both initialised to `{}` in `__init__`). -/
structure TestTextLoader : Type where
  data : PyVal
  errors : PyVal

/-- A freshly constructed `TestTextLoader`: `self.data = {}`,
`self.errors = {}`. -/
def freshTestTextLoader : TestTextLoader :=
  { data := PyVal.dict [], errors := PyVal.dict [] }

/-- The message of the `ValueError` raised by `setData` on a non-dict. -/
def setDataErrMsg : Str := "setData requires a dict argument".toList

/-- `TestTextLoader.setData(text)`: if `text` is a dict, overwrite `self.data`;
otherwise raise `ValueError` — the raise happens before any assignment, so the
instance state is returned unchanged alongside the exception. -/
def setData (st : TestTextLoader) (text : PyVal) :
    TestTextLoader × Option PyErr :=
  if text.isDict then ({ st with data := text }, Option.none)
  else (st, Option.some (PyErr.valueError setDataErrMsg))

/-- `TestTextLoader.setErrors(errors)`: unchecked overwrite. -/
def setErrors (st : TestTextLoader) (errs : PyVal) : TestTextLoader :=
  { st with errors := errs }

/-- `TestTextLoader.load()`: return the held `(data, errors)` pair verbatim. -/
def testTextLoad (st : TestTextLoader) : PyVal × PyVal :=
  (st.data, st.errors)

/-! ### The FileLoader engine -/

/-- The inner loop of `FileLoader.load` for one file:
`for line_num, line in enumerate(f): func(line, line_num, data, errors)`,
with `enumerate` starting at `n`.  `parser` is the bound `lineParser` with
`fname` and the validator already fixed. -/
def runLines {δ : Type} (parser : Str → Nat → δ → ErrDict → δ × ErrDict) :
    List Str → Nat → δ × ErrDict → δ × ErrDict
  | [], _, st => st
  | l :: ls, n, st => runLines parser ls (n + 1) (parser l n st.1 st.2)

/-- The outer loop of `FileLoader.load`: iterate the enumerated files, reading
each one's lines with a line counter restarting at 0, threading the shared
`(data, errors)` accumulators. -/
def runFiles {δ : Type} (parser : Str → Nat → δ → ErrDict → δ × ErrDict) :
    List (List Str) → δ × ErrDict → δ × ErrDict
  | [], st => st
  | f :: fs, st => runFiles parser fs (runLines parser f 0 st)

/-- `FileLoader.load` given the line contents of the enumerated files:
start from `data = {}` and `errors = {}` and fold every line of every file
through the line parser. -/
def fileLoaderLoad {β : Type}
    (parser : Str → Nat → List (Str × β) → ErrDict → List (Str × β) × ErrDict)
    (files : List (List Str)) : List (Str × β) × ErrDict :=
  runFiles parser files ([], [])

/-! ### Helper lemmas about the dict and string primitives -/

theorem lookupD_setD_self {β : Type} (d : List (Str × β)) (k : Str) (v : β) :
    lookupD (setD d k v) k = some v := by
  induction d with
  | nil => simp [setD, lookupD]
  | cons p rest ih =>
    obtain ⟨k', v'⟩ := p
    by_cases h : k' = k
    · simp [setD, lookupD, h]
    · simp [setD, lookupD, h, ih]

theorem setD_setD_self {β : Type} (d : List (Str × β)) (k : Str) (v : β) :
    setD (setD d k v) k v = setD d k v := by
  induction d with
  | nil => simp [setD]
  | cons p rest ih =>
    obtain ⟨k', v'⟩ := p
    by_cases h : k' = k
    · simp [setD, h]
    · simp [setD, h, ih]

theorem mem_keysD_setD {β : Type} (d : List (Str × β)) (k k' : Str) (v : β)
    (h : k' ∈ keysD (setD d k v)) : k' ∈ keysD d ∨ k' = k := by
  induction d with
  | nil => simpa [setD, keysD] using h
  | cons p rest ih =>
    obtain ⟨k₀, v₀⟩ := p
    by_cases hk : k₀ = k
    · simp only [setD, if_pos hk, keysD, List.map_cons] at h ⊢
      exact Or.inl h
    · simp only [setD, if_neg hk, keysD, List.map_cons, List.mem_cons] at h ⊢
      rcases h with h | h
      · exact Or.inl (Or.inl h)
      · rcases ih h with h' | h'
        · exact Or.inl (Or.inr h')
        · exact Or.inr h'

theorem mem_keysD_appendErr (errors : ErrDict) (fname msg k : Str)
    (h : k ∈ keysD (appendErr errors fname msg)) :
    k ∈ keysD errors ∨ k = fname := by
  unfold appendErr at h
  cases hl : lookupD errors fname with
  | some msgs =>
    rw [hl] at h
    exact mem_keysD_setD errors fname k (msgs ++ [msg]) h
  | none =>
    rw [hl] at h
    simp only [keysD, List.map_append, List.mem_append, List.map_cons,
      List.map_nil, List.mem_singleton] at h
    rcases h with h | h
    · exact Or.inl h
    · simpa using Or.inr h

theorem splitEqAux_head_shape (cs : Str) :
    ∀ acc : Str, ∃ s r, splitEqAux cs acc = (acc.reverse ++ s) :: r := by
  induction cs with
  | nil =>
    intro acc
    exact ⟨[], [], by simp [splitEqAux]⟩
  | cons c cs ih =>
    intro acc
    by_cases h : c = '='
    · exact ⟨[], splitEqAux cs [], by simp [splitEqAux, h]⟩
    · obtain ⟨s, r, hs⟩ := ih (c :: acc)
      refine ⟨c :: s, r, ?_⟩
      simp [splitEqAux, h, hs]

theorem pySplitEq_empty_head {t : Str} {seg : Str} {rest : List Str}
    (h : pySplitEq t = [] :: seg :: rest) : ∃ cs, t = '=' :: cs := by
  cases t with
  | nil =>
    exfalso
    simp [pySplitEq, splitEqAux] at h
  | cons c cs =>
    by_cases hc : c = '='
    · exact ⟨cs, by rw [hc]⟩
    · exfalso
      have := splitEqAux_head_shape cs [c]
      obtain ⟨s, r, hs⟩ := this
      rw [pySplitEq, splitEqAux, if_neg hc, hs] at h
      simp at h

theorem splitWSAux_eq_nil {cs : Str} :
    ∀ {acc : Str}, splitWSAux cs acc = [] →
      acc = [] ∧ ∀ c ∈ cs, isWS c = true := by
  induction cs with
  | nil =>
    intro acc h
    rw [splitWSAux] at h
    by_cases ha : acc.isEmpty
    · exact ⟨List.isEmpty_iff.mp ha, by simp⟩
    · simp [ha] at h
  | cons c cs ih =>
    intro acc h
    rw [splitWSAux] at h
    by_cases hw : isWS c
    · rw [if_pos hw] at h
      by_cases ha : acc.isEmpty
      · rw [if_pos ha] at h
        obtain ⟨-, hall⟩ := ih h
        refine ⟨List.isEmpty_iff.mp ha, ?_⟩
        intro x hx
        rcases List.mem_cons.mp hx with hx | hx
        · rw [hx]; exact hw
        · exact hall x hx
      · rw [if_neg ha] at h
        simp at h
    · rw [if_neg hw] at h
      obtain ⟨hacc, -⟩ := ih h
      simp at hacc

theorem dropWhile_head_not {p : Char → Bool} {l : Str} {c : Char} {cs : Str}
    (h : l.dropWhile p = c :: cs) : p c = false := by
  induction l with
  | nil => simp [List.dropWhile] at h
  | cons a l ih =>
    by_cases ha : p a
    · rw [List.dropWhile_cons_of_pos ha] at h
      exact ih h
    · rw [List.dropWhile_cons_of_neg ha] at h
      cases h
      exact Bool.not_eq_true _ |>.mp ha

theorem pySplit_pyStrip_ne_nil (line : Str) (h : pyStrip line ≠ []) :
    pySplit (pyStrip line) ≠ [] := by
  intro hsplit
  have hall : ∀ c ∈ pyStrip line, isWS c = true :=
    (splitWSAux_eq_nil hsplit).2
  unfold pyStrip at h hall
  cases ht : (line.dropWhile isWS).reverse.dropWhile isWS with
  | nil => exact h (by rw [ht]; rfl)
  | cons c cs =>
    have hc : isWS c = false := dropWhile_head_not ht
    have hmem : c ∈ ((line.dropWhile isWS).reverse.dropWhile isWS).reverse := by
      rw [ht]; simp
    have := hall c hmem
    rw [hc] at this
    exact Bool.false_ne_true this

theorem itemParser_err_keys (validate : Str → Bool) (fname line : Str)
    (n : Nat) (data : List (Str × Unit)) (errors : ErrDict) (k : Str)
    (h : k ∈ keysD (itemLineParser validate fname line n data errors).2) :
    k ∈ keysD errors ∨ k = fname := by
  simp only [itemLineParser] at h
  split_ifs at h with h1 h2 h3 h4
  all_goals first
  | exact Or.inl h
  | exact mem_keysD_appendErr errors fname _ k h

theorem keyListParser_err_keys (validate : Str → Bool) (fname line : Str)
    (n : Nat) (data : List (Str × List PvElem)) (errors : ErrDict) (k : Str)
    (h : k ∈ keysD (keyListLineParser validate fname line n data errors).2) :
    k ∈ keysD errors ∨ k = fname := by
  simp only [keyListLineParser] at h
  split_ifs at h with h1 h2 h3 h4 h5
  all_goals first
  | exact Or.inl h
  | exact mem_keysD_appendErr errors fname _ k h

theorem keyValueParser_err_keys (validate : Str → Bool) (fname line : Str)
    (n : Nat) (data : List (Str × List PvElem)) (errors : ErrDict) (k : Str)
    (h : k ∈ keysD (keyValuePairLineParser validate fname line n data errors).2) :
    k ∈ keysD errors ∨ k = fname := by
  simp only [keyValuePairLineParser] at h
  split_ifs at h with h1 h2 h3 h4 h5 h6
  all_goals first
  | exact Or.inl h
  | exact mem_keysD_appendErr errors fname _ k h

theorem runLines_err_keys {β : Type}
    (parser : Str → Nat → List (Str × β) → ErrDict → List (Str × β) × ErrDict)
    (fname : Str)
    (hp : ∀ l n d e k, k ∈ keysD (parser l n d e).2 → k ∈ keysD e ∨ k = fname) :
    ∀ (lines : List Str) (n : Nat) (st : List (Str × β) × ErrDict) (k : Str),
      k ∈ keysD (runLines parser lines n st).2 → k ∈ keysD st.2 ∨ k = fname := by
  intro lines
  induction lines with
  | nil => intro n st k h; exact Or.inl h
  | cons l ls ih =>
    intro n st k h
    rw [runLines] at h
    rcases ih (n + 1) (parser l n st.1 st.2) k h with h' | h'
    · exact hp l n st.1 st.2 k h'
    · exact Or.inr h'

theorem runFiles_err_keys {β : Type}
    (parser : Str → Nat → List (Str × β) → ErrDict → List (Str × β) × ErrDict)
    (fname : Str)
    (hp : ∀ l n d e k, k ∈ keysD (parser l n d e).2 → k ∈ keysD e ∨ k = fname) :
    ∀ (files : List (List Str)) (st : List (Str × β) × ErrDict) (k : Str),
      k ∈ keysD (runFiles parser files st).2 → k ∈ keysD st.2 ∨ k = fname := by
  intro files
  induction files with
  | nil => intro st k h; exact Or.inl h
  | cons f fs ih =>
    intro st k h
    rw [runFiles] at h
    rcases ih (runLines parser f 0 st) k h with h' | h'
    · exact runLines_err_keys parser fname hp f 0 st k h'
    · exact Or.inr h'

/-! ### Claim theorems -/

/-- C1: the claim says `RecursiveFileLoader` on a directory containing
`.hidden`, `backup~` and `real.conf` yields only `real.conf`.  The code
instead raises `TypeError` on every directory: `filter(files,
str.startswith('.'))` swaps `filter`'s arguments, and evaluating
`str.startswith('.')` already raises before `filter` runs, contradicting the
function's own docstring (`Ignore files beginning with . or ending in ~.`).
This theorem evaluates the embedded code at the claim's input. -/
theorem c1_recursiveFileLoader_raises_on_dir :
    RecursiveFileLoader (FSNode.dir "d".toList
      [FSNode.file ".hidden".toList, FSNode.file "backup~".toList,
        FSNode.file "real.conf".toList]) =
      Except.error strStartswithMissingArg := rfl

/-- C2: the claim says `EnvLoader.load()` returns a pair `(data, errors)` with
`errors` empty.  The code (`return os.environ`) returns the environment dict
itself, with no tuple wrapping at all: at a sample environment the result is
a bare dict and not a 2-tuple. -/
theorem c2_envLoaderLoad_returns_bare_dict :
    (envLoaderLoad [("PATH".toList, "/bin".toList)]).isTuple2 = false ∧
      envLoaderLoad [("PATH".toList, "/bin".toList)] =
        PyLoadReturn.dict [("PATH".toList, "/bin".toList)] :=
  ⟨rfl, rfl⟩

/-- C3 counterexample: after parsing `"k v1 v2"` then `"k v3"` with
`KeyListFileLoader.lineParser`, `data["k"]` is NOT the claimed
`[["v1","v2"], ["v3"]]` (the first occurrence is not wrapped). -/
theorem c3_nested_append_counterexample :
    lookupD (keyListLineParser acceptAllValidator "f".toList "k v3".toList 1
        (keyListLineParser acceptAllValidator "f".toList "k v1 v2".toList 0
          [] []).1
        (keyListLineParser acceptAllValidator "f".toList "k v1 v2".toList 0
          [] []).2).1 "k".toList ≠
      some [PvElem.lst ["v1".toList, "v2".toList],
        PvElem.lst ["v3".toList]] := by
  decide

/-- C3 amended: after `"k v1 v2"`, `data["k"] == ["v1","v2"]`; after the
subsequent `"k v3"`, `data["k"] == ["v1","v2",["v3"]]` — the later
occurrence's whole token-list is appended as one element onto the existing
flat token list, and no error is recorded. -/
theorem c3_nested_append_amended :
    lookupD (keyListLineParser acceptAllValidator "f".toList "k v1 v2".toList 0
        [] []).1 "k".toList =
      some [PvElem.str "v1".toList, PvElem.str "v2".toList] ∧
    lookupD (keyListLineParser acceptAllValidator "f".toList "k v3".toList 1
        (keyListLineParser acceptAllValidator "f".toList "k v1 v2".toList 0
          [] []).1
        (keyListLineParser acceptAllValidator "f".toList "k v1 v2".toList 0
          [] []).2).1 "k".toList =
      some [PvElem.str "v1".toList, PvElem.str "v2".toList,
        PvElem.lst ["v3".toList]] ∧
    (keyListLineParser acceptAllValidator "f".toList "k v3".toList 1
        (keyListLineParser acceptAllValidator "f".toList "k v1 v2".toList 0
          [] []).1
        (keyListLineParser acceptAllValidator "f".toList "k v1 v2".toList 0
          [] []).2).2 = [] := by
  refine ⟨?_, ?_, ?_⟩ <;> decide

/-- C4: for every key=value line splitting (after strip) into at least two
`=`-segments, not a comment, with a non-empty key not already in `data` and
the accept-all validator, `KeyValuePairFileLoader.lineParser` sets `data[key]`
to the ordered list of segments after the first `=`, leaving `errors`
untouched. -/
theorem c4_keyValue_sets_remaining_segments (fname line : Str) (n : Nat)
    (data : List (Str × List PvElem)) (errors : ErrDict)
    (key seg : Str) (rest : List Str)
    (hsplit : pySplitEq (pyStrip line) = key :: seg :: rest)
    (hhash : pyStartswith hashMark (pyStrip line) = false)
    (hkey : key ≠ [])
    (hmem : containsD data key = false) :
    (keyValuePairLineParser acceptAllValidator fname line n data errors).1 =
        setD data key ((seg :: rest).map PvElem.str) ∧
      lookupD
        (keyValuePairLineParser acceptAllValidator fname line n data
          errors).1 key = some ((seg :: rest).map PvElem.str) ∧
      (keyValuePairLineParser acceptAllValidator fname line n data
        errors).2 = errors := by
  have hne : pyStrip line ≠ [] := by
    intro he
    rw [he] at hsplit
    simp [pySplitEq, splitEqAux] at hsplit
  have hlen : (pyStrip line).length ≠ 0 := by
    simpa [List.length_eq_zero] using hne
  have hres : keyValuePairLineParser acceptAllValidator fname line n data
      errors = (setD data key ((seg :: rest).map PvElem.str), errors) := by
    simp only [keyValuePairLineParser, hhash, if_false, hlen, if_neg,
      Bool.false_eq_true, hsplit]
    simp [hkey, List.length_eq_zero, acceptAllValidator, hmem]
  rw [hres]
  exact ⟨rfl, lookupD_setD_self data key _, rfl⟩

/-- C4 witness: the line `"a=b=c"` with empty initial `data` yields
`data["a"] == ["b","c"]`. -/
theorem c4_witness :
    lookupD (keyValuePairLineParser acceptAllValidator "f".toList
        "a=b=c".toList 0 [] []).1 "a".toList =
      some [PvElem.str "b".toList, PvElem.str "c".toList] :=
  (c4_keyValue_sets_remaining_segments "f".toList "a=b=c".toList 0 [] []
    "a".toList "b".toList ["c".toList] (by decide) (by decide) (by decide)
    rfl).2.1

/-- C5: for every line whose stripped text splits on `=` into at least two
segments with the first segment empty (such as `"=value"`),
`KeyValuePairFileLoader.lineParser` appends the "malformed key" error under
`fname` and adds no entry to `data`; the result does not depend on the
validator, which is never consulted. -/
theorem c5_empty_key_malformed (validate : Str → Bool) (fname line : Str)
    (n : Nat) (data : List (Str × List PvElem)) (errors : ErrDict)
    (seg : Str) (rest : List Str)
    (hsplit : pySplitEq (pyStrip line) = [] :: seg :: rest) :
    keyValuePairLineParser validate fname line n data errors =
      (data, appendErr errors fname (malformedKeyMsg n [])) := by
  obtain ⟨cs, hcs⟩ := pySplitEq_empty_head hsplit
  have hhash : pyStartswith hashMark (pyStrip line) = false := by
    rw [hcs]
    simp [pyStartswith, hashMark, List.isPrefixOf]
  have hne : (pyStrip line).length ≠ 0 := by
    rw [hcs]
    simp
  simp only [keyValuePairLineParser, hhash, if_false, hne, if_neg, hsplit,
    Bool.false_eq_true]
  simp

/-- C5 witness: the line `"=value"` records a malformed-key error and leaves
`data` empty, even with a validator rejecting everything. -/
theorem c5_witness :
    keyValuePairLineParser (fun _ => false) "f".toList "=value".toList 3
        [] [] =
      ([], appendErr [] "f".toList (malformedKeyMsg 3 [])) :=
  c5_empty_key_malformed (fun _ => false) "f".toList "=value".toList 3 [] []
    "value".toList [] (by decide)

/-- C6: for all three line parsers, a line that is blank after stripping or
whose stripped text starts with `#` leaves both `data` and `errors`
unchanged. -/
theorem c6_comment_blank_noop (validate : Str → Bool) (fname line : Str)
    (n : Nat) (dataI : List (Str × Unit))
    (dataK dataV : List (Str × List PvElem)) (errI errK errV : ErrDict)
    (h : pyStartswith hashMark (pyStrip line) = true ∨ pyStrip line = []) :
    itemLineParser validate fname line n dataI errI = (dataI, errI) ∧
      keyListLineParser validate fname line n dataK errK = (dataK, errK) ∧
      keyValuePairLineParser validate fname line n dataV errV =
        (dataV, errV) := by
  rcases h with h | h
  · refine ⟨?_, ?_, ?_⟩ <;>
      simp [itemLineParser, keyListLineParser, keyValuePairLineParser, h]
  · refine ⟨?_, ?_, ?_⟩ <;>
      simp [itemLineParser, keyListLineParser, keyValuePairLineParser, h,
        pyStartswith, List.isPrefixOf, hashMark]

/-- C6 witness: the comment line `"#comment"` and the all-whitespace line
`"   "` are no-ops for all three parsers. -/
theorem c6_witness :
    (itemLineParser acceptAllValidator "f".toList "#comment".toList 0
        [] [] = ([], []) ∧
      keyListLineParser acceptAllValidator "f".toList "#comment".toList 0
        [] [] = ([], []) ∧
      keyValuePairLineParser acceptAllValidator "f".toList "#comment".toList 0
        [] [] = ([], [])) ∧
    (itemLineParser acceptAllValidator "f".toList "   ".toList 0
        [] [] = ([], []) ∧
      keyListLineParser acceptAllValidator "f".toList "   ".toList 0
        [] [] = ([], []) ∧
      keyValuePairLineParser acceptAllValidator "f".toList "   ".toList 0
        [] [] = ([], [])) :=
  ⟨c6_comment_blank_noop acceptAllValidator "f".toList "#comment".toList 0
      [] [] [] [] [] [] (Or.inl (by decide)),
    c6_comment_blank_noop acceptAllValidator "f".toList "   ".toList 0
      [] [] [] [] [] [] (Or.inr (by decide))⟩

/-- C7: for every item-list line that strips to a non-comment, non-blank text
whose first token `key` passes validation, `ItemFileLoader.lineParser` sets
`data[key] = None` without touching `errors`, and parsing the same line again
(at any line number) leaves `data` and `errors` exactly as they were. -/
theorem c7_item_none_idempotent (validate : Str → Bool) (fname line : Str)
    (n m : Nat) (data : List (Str × Unit)) (errors : ErrDict)
    (key : Str) (rest : List Str)
    (hsplit : pySplit (pyStrip line) = key :: rest)
    (hhash : pyStartswith hashMark (pyStrip line) = false)
    (hval : validate key = true) :
    lookupD (itemLineParser validate fname line n data errors).1 key =
        some () ∧
      (itemLineParser validate fname line n data errors).2 = errors ∧
      itemLineParser validate fname line m
          (itemLineParser validate fname line n data errors).1
          (itemLineParser validate fname line n data errors).2 =
        itemLineParser validate fname line n data errors := by
  have hne : (pyStrip line).length ≠ 0 := by
    intro he
    rw [List.length_eq_zero] at he
    rw [he] at hsplit
    simp [pySplit, splitWSAux] at hsplit
  have hres : ∀ (j : Nat) (d : List (Str × Unit)) (e : ErrDict),
      itemLineParser validate fname line j d e = (setD d key (), e) := by
    intro j d e
    simp only [itemLineParser, hhash, if_false, hne, if_neg, hsplit,
      Bool.false_eq_true]
    simp [hval]
  refine ⟨?_, ?_, ?_⟩
  · rw [hres]
    exact lookupD_setD_self data key ()
  · rw [hres]
  · simp only [hres]
    simp [setD_setD_self]

/-- C7 witness: the line `"item1"` parsed twice from empty state yields
`data == {"item1": None}` and no error, and the second parse changes
nothing. -/
theorem c7_witness :
    lookupD (itemLineParser acceptAllValidator "f".toList "item1".toList 0
        [] []).1 "item1".toList = some () ∧
      (itemLineParser acceptAllValidator "f".toList "item1".toList 0
        [] []).2 = [] ∧
      itemLineParser acceptAllValidator "f".toList "item1".toList 5
          (itemLineParser acceptAllValidator "f".toList "item1".toList 0
            [] []).1
          (itemLineParser acceptAllValidator "f".toList "item1".toList 0
            [] []).2 =
        itemLineParser acceptAllValidator "f".toList "item1".toList 0 [] [] :=
  c7_item_none_idempotent acceptAllValidator "f".toList "item1".toList 0 5
    [] [] "item1".toList [] (by decide) (by decide) rfl

/-- C8: for every FileLoader-family load (any validator, any enumerated file
contents) and each of the three line parsers, every key of the resulting
error collection equals the loader's configured source path `fname`: parse
errors are never keyed by the individual file being read (the line parsers
are not even given that path), so files enumerated under a directory share
the one configured-path key. -/
theorem c8_errors_keyed_by_fname (validate : Str → Bool) (fname : Str)
    (files : List (List Str)) (k : Str) :
    (k ∈ keysD (fileLoaderLoad (itemLineParser validate fname) files).2 →
        k = fname) ∧
      (k ∈ keysD (fileLoaderLoad (keyListLineParser validate fname)
          files).2 → k = fname) ∧
      (k ∈ keysD (fileLoaderLoad (keyValuePairLineParser validate fname)
          files).2 → k = fname) := by
  refine ⟨fun h => ?_, fun h => ?_, fun h => ?_⟩
  · rcases runFiles_err_keys (itemLineParser validate fname) fname
        (fun l n d e k' => itemParser_err_keys validate fname l n d e k')
        files ([], []) k h with h' | h'
    · simp [keysD] at h'
    · exact h'
  · rcases runFiles_err_keys (keyListLineParser validate fname) fname
        (fun l n d e k' => keyListParser_err_keys validate fname l n d e k')
        files ([], []) k h with h' | h'
    · simp [keysD] at h'
    · exact h'
  · rcases runFiles_err_keys (keyValuePairLineParser validate fname) fname
        (fun l n d e k' => keyValueParser_err_keys validate fname l n d e k')
        files ([], []) k h with h' | h'
    · simp [keysD] at h'
    · exact h'

/-- C8 witness: a two-file load whose lines all fail a reject-all validator
accumulates its errors under the single configured path `"f"`. -/
theorem c8_witness :
    "f".toList ∈ keysD (fileLoaderLoad
        (itemLineParser (fun _ => false) "f".toList)
        [["x".toList], ["y".toList]]).2 ∧
      ("f".toList : Str) = "f".toList :=
  ⟨by decide,
    (c8_errors_keyed_by_fname (fun _ => false) "f".toList
      [["x".toList], ["y".toList]] "f".toList).1 (by decide)⟩

/-- C9: `TestTextLoader.setData` with a non-dict argument raises `ValueError`
and leaves the held data unchanged, and `load()` on a fresh instance with no
prior `setData`/`setErrors` call returns `({}, {})`. -/
theorem c9_testTextLoader_setData_load (st : TestTextLoader) (t : PyVal)
    (h : t.isDict = false) :
    setData st t = (st, Option.some (PyErr.valueError setDataErrMsg)) ∧
      testTextLoad freshTestTextLoader = (PyVal.dict [], PyVal.dict []) := by
  constructor
  · simp [setData, h]
  · rfl

/-- C9 witness: `setData` on a fresh loader with the string `"x"` (not a
dict) raises and preserves the empty data. -/
theorem c9_witness :
    (PyVal.str "x".toList).isDict = false ∧
      setData freshTestTextLoader (PyVal.str "x".toList) =
        (freshTestTextLoader,
          Option.some (PyErr.valueError setDataErrMsg)) :=
  ⟨rfl, (c9_testTextLoader_setData_load freshTestTextLoader
    (PyVal.str "x".toList) rfl).1⟩

/-- C10 (implicit): the defensive zero-token branch of
`ItemFileLoader.lineParser` is unreachable — a non-empty stripped line always
splits into at least one token — so the parser never records a
"malformed data" error: its error output is either unchanged or extended
with a validation-failure message only. -/
theorem c10_item_malformed_unreachable :
    (∀ line : Str, pyStrip line ≠ [] → pySplit (pyStrip line) ≠ []) ∧
      (∀ (validate : Str → Bool) (fname line : Str) (n : Nat)
        (data : List (Str × Unit)) (errors : ErrDict),
        (itemLineParser validate fname line n data errors).2 = errors ∨
          ∃ key, (itemLineParser validate fname line n data errors).2 =
            appendErr errors fname (validationFailedMsg n key)) := by
  constructor
  · exact pySplit_pyStrip_ne_nil
  · intro validate fname line n data errors
    by_cases hhash : pyStartswith hashMark (pyStrip line) = true
    · left
      simp [itemLineParser, hhash]
    · by_cases hlen : (pyStrip line).length = 0
      · left
        simp [itemLineParser, hhash, hlen]
      · have hne : pyStrip line ≠ [] := by
          simpa [List.length_eq_zero] using hlen
        have hsp : pySplit (pyStrip line) ≠ [] :=
          pySplit_pyStrip_ne_nil line hne
        have hsl : (pySplit (pyStrip line)).length ≠ 0 := by
          simpa [List.length_eq_zero] using hsp
        by_cases hval : validate ((pySplit (pyStrip line)).head?.getD []) = true
        · left
          simp [itemLineParser, hhash, hlen, hsl, hval]
        · right
          refine ⟨(pySplit (pyStrip line)).head?.getD [], ?_⟩
          simp [itemLineParser, hhash, hlen, hsl, hval]

/-- C10 witness: the line `" x "` strips to a non-empty text with one token,
and parsing it from empty state records no error at all. -/
theorem c10_witness :
    pySplit (pyStrip " x ".toList) ≠ [] ∧
      ((itemLineParser acceptAllValidator "f".toList " x ".toList 0
          [] []).2 = [] ∨
        ∃ key, (itemLineParser acceptAllValidator "f".toList " x ".toList 0
            [] []).2 =
          appendErr [] "f".toList (validationFailedMsg 0 key)) :=
  ⟨c10_item_malformed_unreachable.1 " x ".toList (by decide),
    c10_item_malformed_unreachable.2 acceptAllValidator "f".toList
      " x ".toList 0 [] []⟩

end Portage
